import Mathlib

/-!
# Verification of the gdrive-mcp Google Docs tool layer

Shallow embedding of the document-model projection and mutation tools of
`src/server.ts`.  The nested JSON tree of the remote Docs API is modelled by
inductive types mirroring exactly the fields the source reads; JS `undefined`
fields become `Option`, JS truthiness tests are translated explicitly.

Helpers that live in `googleDocsApiHelpers.ts` / `types.ts` (files not present
in the source tree; only their call sites are) are modelled from the spec and
are marked as such in their doc comments.  Remote text search
(`findTextRange`) and paragraph lookup (`getParagraphRange`) are passed in as
oracle functions, since their results are data the tools consume.
-/

set_option linter.unusedVariables false

namespace GDocs

/-- Character style of a text run (`textRun.textStyle`), with exactly the
fields `convertTextRunToMarkdown` reads.  `link` holds `textStyle.link.url`
when present (the source tests `style.link` / `style.link?.url`). -/
structure TextStyle where
  bold : Bool := false
  italic : Bool := false
  underline : Bool := false
  strikethrough : Bool := false
  link : Option String := none
deriving Repr, DecidableEq

/-- A text run (`paragraphElement.textRun`): optional literal content and
optional character style. -/
structure TextRun where
  content : Option String := none
  textStyle : Option TextStyle := none
deriving Repr, DecidableEq

/-- An element of `paragraph.elements`; the source only ever reads its
`textRun` field. -/
structure ParagraphElement where
  textRun : Option TextRun := none
deriving Repr, DecidableEq

/-- The named paragraph style enum (`paragraphStyle.namedStyleType`).
`HEADING_n` is modelled structurally as `headingN n`; the remaining enum
values that are not headings, TITLE or SUBTITLE behave like `normalText`. -/
inductive NamedStyle where
  | headingN (n : Nat)
  | title
  | subtitle
  | normalText
deriving Repr, DecidableEq

/-- The `paragraph.paragraphStyle` object, with the single field the projection reads. -/
structure ParagraphStyle where
  namedStyleType : Option NamedStyle := none
deriving Repr, DecidableEq

/-- The `paragraph.bullet` object; only its presence (truthiness) matters to the
projection, plus the `listId` the source inspects without using. -/
structure Bullet where
  listId : Option String := none
deriving Repr, DecidableEq

/-- A paragraph as read by the projection functions. -/
structure Paragraph where
  elements : Option (List ParagraphElement) := none
  paragraphStyle : Option ParagraphStyle := none
  bullet : Option Bullet := none
deriving Repr, DecidableEq

/-- A structural element of a body's `content` list.  In the JSON each element
is an object with optional `paragraph` / `table` / `sectionBreak` fields; the
source dispatches on which one is present, so a tagged variant is faithful.
`other` stands for elements carrying none of the three (e.g. elements emptied
by a field mask).  A table is its `tableRows` field: an optional list of rows,
each row being its optional `tableCells` list, each cell being its optional
`content` list of structural elements (so, as in the JSON, a cell may in
principle contain a nested table). -/
inductive SElem where
  | para (p : Paragraph)
  | table (tableRows : Option (List (Option (List (Option (List SElem))))))
  | secBreak
  | other

/-- A table row, represented by its `tableCells` field. -/
abbrev TableRowRep := Option (List (Option (List SElem)))

/-- A table cell, represented by its `content` field. -/
abbrev TableCellRep := Option (List SElem)

/-! ## Markdown projection (`server.ts` lines 172-325) -/

/-- JS `String.prototype.trim()`: the string with leading and trailing
whitespace removed, computed on the character list. -/
def jsTrim (s : String) : String :=
  String.mk (((s.data.dropWhile Char.isWhitespace).reverse.dropWhile Char.isWhitespace).reverse)

/-- JS `.replace(/\n/g, ' ')`: every newline character replaced by a
space. -/
def replaceNewlineWithSpace (s : String) : String :=
  String.mk (s.data.map fun c => if c = '\n' then ' ' else c)

/-- JS `.substring(0, m)`: the first `m` characters. -/
def strTake (s : String) (m : Nat) : String :=
  String.mk (s.data.take m)

/-- Function `convertTextRunToMarkdown` (`server.ts:248-278`): wraps the run's content
in bold/italic markers, then `<u>` when underlined and not a link, then `~~`,
then `[text](url)` when the style carries a link URL.  A run without a
`textStyle` object is returned verbatim. -/
def convertTextRunToMarkdown (tr : TextRun) : String :=
  let text := tr.content.getD ""
  match tr.textStyle with
  | none => text
  | some style =>
    let t1 :=
      if style.bold && style.italic then "***" ++ text ++ "***"
      else if style.bold then "**" ++ text ++ "**"
      else if style.italic then "*" ++ text ++ "*"
      else text
    let t2 := if style.underline && style.link.isNone then "<u>" ++ t1 ++ "</u>" else t1
    let t3 := if style.strikethrough then "~~" ++ t2 ++ "~~" else t2
    match style.link with
    | some url => "[" ++ t3 ++ "](" ++ url ++ ")"
    | none => t3

/-- The concatenated markdown text of a paragraph's runs
(the `text` accumulator of `convertParagraphToMarkdown`). -/
def paragraphMdText (p : Paragraph) : String :=
  (p.elements.getD []).foldl
    (fun acc e =>
      match e.textRun with
      | some tr => acc ++ convertTextRunToMarkdown tr
      | none => acc) ""

/-- The heading level `convertParagraphToMarkdown` derives from the named
style: `HEADING_n ↦ n`, `TITLE ↦ 1`, `SUBTITLE ↦ 2`, otherwise not a
heading (`none`). -/
def headingLevel (p : Paragraph) : Option Nat :=
  match p.paragraphStyle with
  | some ps =>
    match ps.namedStyleType with
    | some (NamedStyle.headingN n) => some n
    | some NamedStyle.title => some 1
    | some NamedStyle.subtitle => some 2
    | _ => none
  | none => none

/-- Function `convertParagraphToMarkdown` (`server.ts:195-243`): a heading paragraph
with non-blank text renders as `min level 6` hashes, a space and the trimmed
text followed by a blank line; otherwise a bulleted paragraph with non-blank
text renders as a dash line; otherwise non-blank text renders trimmed with a
blank line; a blank paragraph renders as a single newline. -/
def convertParagraphToMarkdown (p : Paragraph) : String :=
  let text := paragraphMdText p
  let isList := p.bullet.isSome
  match headingLevel p with
  | some lvl =>
    if jsTrim text ≠ "" then "".pushn '#' (min lvl 6) ++ " " ++ jsTrim text ++ "\n\n"
    else if isList && jsTrim text ≠ "" then "- " ++ jsTrim text ++ "\n"
    else if jsTrim text ≠ "" then jsTrim text ++ "\n\n"
    else "\n"
  | none =>
    if isList && jsTrim text ≠ "" then "- " ++ jsTrim text ++ "\n"
    else if jsTrim text ≠ "" then jsTrim text ++ "\n\n"
    else "\n"

/-- The cell text accumulated by `convertTableToMarkdown` (`server.ts:295-307`):
for each element of the cell's `content` that is a paragraph, each run's
content with newlines replaced by spaces and then trimmed, all concatenated. -/
def tableCellText (cell : TableCellRep) : String :=
  (cell.getD []).foldl
    (fun acc el =>
      match el with
      | SElem.para p =>
        acc ++ (p.elements.getD []).foldl
          (fun a pe =>
            match pe.textRun with
            | some tr =>
              match tr.content with
              | some c => a ++ jsTrim (replaceNewlineWithSpace c)
              | none => a
            | none => a) ""
      | _ => acc) ""

/-- One markdown row line: `|` followed by ` <cellText> |` per cell. -/
def tableRowLine (cells : List TableCellRep) : String :=
  cells.foldl (fun acc c => acc ++ " " ++ tableCellText c ++ " |") "|"

/-- The header separator emitted after the first row carrying cells:
`|` followed by ` --- |` per cell of that row. -/
def tableSeparatorLine (cells : List TableCellRep) : String :=
  cells.foldl (fun acc _ => acc ++ " --- |") "|"

/-- The row loop of `convertTableToMarkdown` (`server.ts:291-322`), with the
`isFirstRow` flag threaded explicitly.  A row whose `tableCells` field is
absent is skipped entirely (`if (!row.tableCells) return;`) and does not
consume the `isFirstRow` flag. -/
def tableRowsToMarkdown : List TableRowRep → Bool → String
  | [], _ => ""
  | none :: rest, isFirstRow => tableRowsToMarkdown rest isFirstRow
  | some cells :: rest, isFirstRow =>
    tableRowLine cells ++ "\n" ++
      (if isFirstRow then tableSeparatorLine cells ++ "\n" else "") ++
      tableRowsToMarkdown rest false

/-- Function `convertTableToMarkdown` (`server.ts:283-325`): the empty string when the
table has no `tableRows` or an empty row list; otherwise a leading newline,
the row loop, and a trailing newline. -/
def convertTableToMarkdown (tableRows : Option (List TableRowRep)) : String :=
  match tableRows with
  | none => ""
  | some rows => if rows.length == 0 then "" else "\n" ++ tableRowsToMarkdown rows true ++ "\n"

/-- The per-element dispatch of `convertDocsJsonToMarkdown`
(`server.ts:179-187`): paragraphs and tables through their converters, a
section break as a horizontal rule, anything else contributing nothing. -/
def elemToMarkdown : SElem → String
  | SElem.para p => convertParagraphToMarkdown p
  | SElem.table rows => convertTableToMarkdown rows
  | SElem.secBreak => "\n---\n\n"
  | SElem.other => ""

/-- A body: its optional `content` list. -/
structure Body where
  content : Option (List SElem) := none

/-- The content source a read operates on (either `{ body: tab body }` or the
document itself; only `body` is consumed downstream). -/
structure ContentSource where
  body : Option Body := none

/-- Function `convertDocsJsonToMarkdown` (`server.ts:172-190`): the fixed
empty-document notice when `body.content` is absent, otherwise the trimmed
concatenation of each element's markdown. -/
def convertDocsJsonToMarkdown (cs : ContentSource) : String :=
  match cs.body with
  | none => "Document appears to be empty."
  | some body =>
    match body.content with
    | none => "Document appears to be empty."
    | some content => jsTrim (content.foldl (fun acc el => acc ++ elemToMarkdown el) "")

/-! ## Plain-text extraction (`server.ts:399-430`) -/

/-- The text of one paragraph's runs as accumulated by the text-format reader:
each run's `content` concatenated (a run without content contributes
nothing). -/
def paragraphRunText (p : Paragraph) : String :=
  (p.elements.getD []).foldl
    (fun acc pe =>
      match pe.textRun with
      | some tr => acc ++ tr.content.getD ""
      | none => acc) ""

/-- The table walk of the text-format reader (`server.ts:417-429`): rows, then
cells, then the cell's content elements, reading only elements that are
paragraphs (`cellElement.paragraph?.elements`). -/
def tableRunText (tableRows : Option (List TableRowRep)) : String :=
  (tableRows.getD []).foldl
    (fun acc row =>
      (row.getD []).foldl
        (fun acc2 cell =>
          (cell.getD []).foldl
            (fun acc3 cellElement =>
              match cellElement with
              | SElem.para p => acc3 ++ paragraphRunText p
              | _ => acc3) acc2) acc) ""

/-- The text-format accumulation loop of `readGoogleDoc` (`server.ts:404-430`):
paragraph run text plus table cell text, walking the content elements in
order. -/
def extractText (content : List SElem) : String :=
  content.foldl
    (fun acc el =>
      match el with
      | SElem.para p => acc ++ paragraphRunText p
      | SElem.table rows => acc ++ tableRunText rows
      | _ => acc) ""

/-! ## Tabs and tab resolution

A tab's payload (`documentTab`) differs per tool because each call site
fetches a different field mask, so `GTab` is polymorphic in it. -/

/-- A tab of a document: its `tabProperties.tabId`, its optional
`documentTab` payload and its recursive `childTabs` list. -/
inductive GTab (β : Type) where
  | mk (tabId : Option String) (documentTab : Option β) (childTabs : List (GTab β))

/-- The `tabProperties.tabId` of a tab. -/
def GTab.tabId : GTab β → Option String
  | GTab.mk tid _ _ => tid

/-- The `documentTab` payload of a tab. -/
def GTab.documentTab : GTab β → Option β
  | GTab.mk _ dt _ => dt

/-- Modelled from the spec: `findTabById` of `googleDocsApiHelpers.ts`, which
is not in the source tree (only its call sites are).  Spec SS4.1: a
depth-first search over the tab hierarchy (`childTabs` is a recursive field)
returning the first exact identifier match, `none` when no tab matches. -/
def tabsFind (id : String) : List (GTab β) → Option (GTab β)
  | [] => none
  | GTab.mk tid dt children :: rest =>
    if tid = some id then some (GTab.mk tid dt children)
    else
      match tabsFind id children with
      | some r => some r
      | none => tabsFind id rest

/-- All tab identifiers occurring anywhere in a tab forest. -/
def allTabIds : List (GTab β) → List String
  | [] => []
  | GTab.mk tid _ children :: rest =>
    (match tid with
     | some i => [i]
     | none => []) ++ allTabIds children ++ allTabIds rest

/-- Membership in the identifier list of a tab forest, unfolded one step. -/
theorem mem_allTabIds_cons (id : String) (tid : Option String) (dt : Option β)
    (children rest : List (GTab β)) :
    id ∈ allTabIds (GTab.mk tid dt children :: rest) ↔
      tid = some id ∨ id ∈ allTabIds children ∨ id ∈ allTabIds rest := by
  cases tid <;> simp [allTabIds, eq_comm]

/-- The depth-first search misses an identifier exactly when no tab in the
forest carries it. -/
theorem tabsFind_eq_none_iff (id : String) (ts : List (GTab β)) :
    tabsFind id ts = none ↔ id ∉ allTabIds ts := by
  induction ts using tabsFind.induct id with
  | case1 => simp [tabsFind, allTabIds]
  | case2 dt children rest =>
    simp [tabsFind, mem_allTabIds_cons]
  | case3 tid dt children rest hne r hr ih =>
    have hmem : id ∈ allTabIds children := by
      by_contra hni
      rw [ih.mpr hni] at hr
      exact Option.noConfusion hr
    simp only [tabsFind, if_neg hne, hr]
    simp [mem_allTabIds_cons, hmem]
  | case4 tid dt children rest hne hnone ihc ihr =>
    have hchild : id ∉ allTabIds children := ihc.mp hnone
    simp only [tabsFind, if_neg hne, hnone]
    simp [mem_allTabIds_cons, ihr, hchild, hne]

/-! ## The tool layer

Each tool's `execute` is modelled as a function from its parameters and the
fetched document snapshot to either a typed failure (a thrown `UserError` /
`NotImplementedError`) or the list of mutation requests submitted through
`executeBatchUpdate` together with the returned message.  An `Except.error`
result therefore means the operation failed before any `batchUpdate`
mutation was issued. -/

/-- A mutation operation of a `batchUpdate` request, with the fields the
tools populate. -/
inductive Request where
  | insertText (index : Int) (tabId : Option String) (text : String)
  | deleteContentRange (startIndex endIndex : Int) (tabId : Option String)
  | updateTextStyle (startIndex endIndex : Int) (fields : List String)
  | updateParagraphStyle (startIndex endIndex : Int) (fields : List String)
deriving Repr, DecidableEq

/-- A failure thrown before the batch submission: a `UserError` or a
`NotImplementedError`. -/
inductive ToolError where
  | user (msg : String)
  | notImplemented (msg : String)
deriving Repr, DecidableEq

/-- Outcome of one tool invocation: a typed failure, or the submitted
mutation requests plus the success message. -/
abbrev ToolResult := Except ToolError (List Request × String)

/-- A resolved text range (result shape of the `findTextRange` /
`getParagraphRange` helpers). -/
structure TRange where
  startIndex : Int
  endIndex : Int
deriving Repr, DecidableEq

/-! ### readGoogleDoc (`server.ts:331-468`) -/

/-- The `documentTab` payload as `readGoogleDoc` uses it: its `body`. -/
structure DocumentTabBody where
  body : Option Body := none

/-- The document snapshot `readGoogleDoc` fetches: optional `tabs` forest and
the legacy `body`. -/
structure DocRead where
  tabs : Option (List (GTab DocumentTabBody)) := none
  body : Option Body := none

/-- The output format of `readGoogleDoc`. -/
inductive ReadFormat where
  | text
  | markdown
  | json
deriving Repr, DecidableEq

/-- The tab-resolution phase of `readGoogleDoc` (`server.ts:359-374`): with a
`tabId`, look the tab up (`findTabById`) and fail before producing any
content when it is missing or has no `documentTab`; without one, use the
document body. -/
def resolveContentSource (doc : DocRead) (tabId : Option String) :
    Except ToolError ContentSource :=
  match tabId with
  | none => Except.ok { body := doc.body }
  | some tid =>
    match tabsFind tid (doc.tabs.getD []) with
    | none =>
      Except.error (ToolError.user
        ("Tab with ID \"" ++ tid ++ "\" not found in document."))
    | some t =>
      match t.documentTab with
      | none =>
        Except.error (ToolError.user
          ("Tab \"" ++ tid ++ "\" does not have content (may not be a document tab)."))
      | some dtb => Except.ok { body := dtb.body }

/-- The `execute` of `readGoogleDoc` (`server.ts:340-451`), applied to the
snapshot the fetch returned.  `stringify` stands for the runtime's
`JSON.stringify`, consumed only by the `json` format.  The JS guard
`args.maxLength && total > args.maxLength` is translated explicitly
(`undefined` and `0` are both falsy).  A read submits no mutation request.
The snapshot a real call receives is shaped by the fetch's field mask
(`server.ts:345-356`); `readGoogleDocTool` below composes that fetch with
this phase. -/
def readGoogleDoc (stringify : ContentSource → String) (fmt : ReadFormat)
    (maxLength : Option Nat) (tabId : Option String) (doc : DocRead) : ToolResult :=
  match resolveContentSource doc tabId with
  | Except.error e => Except.error e
  | Except.ok cs =>
    match fmt with
    | ReadFormat.json =>
      let jsonContent := stringify cs
      match maxLength with
      | some m =>
        if m ≠ 0 ∧ jsonContent.length > m then
          Except.ok ([], strTake jsonContent m ++
            "\n... [JSON truncated: " ++ toString jsonContent.length ++ " total chars]")
        else Except.ok ([], jsonContent)
      | none => Except.ok ([], jsonContent)
    | ReadFormat.markdown =>
      let markdownContent := convertDocsJsonToMarkdown cs
      let totalLength := markdownContent.length
      match maxLength with
      | some m =>
        if m ≠ 0 ∧ totalLength > m then
          Except.ok ([], strTake markdownContent m ++
            "\n\n... [Markdown truncated to " ++ toString m ++ " chars of " ++
            toString totalLength ++
            " total. Use maxLength parameter to adjust limit or remove it to get full content.]")
        else Except.ok ([], markdownContent)
      | none => Except.ok ([], markdownContent)
    | ReadFormat.text =>
      let textContent := extractText ((cs.body.bind Body.content).getD [])
      if jsTrim textContent = "" then
        Except.ok ([], "Document found, but appears empty.")
      else
        let totalLength := textContent.length
        match maxLength with
        | some m =>
          if m ≠ 0 ∧ totalLength > m then
            Except.ok ([], "Content (truncated to " ++ toString m ++ " chars of " ++
              toString totalLength ++ " total):\n---\n" ++ strTake textContent m ++
              "\n\n... [Document continues for " ++ toString (totalLength - m) ++
              " more characters. Use maxLength parameter to adjust limit or remove it to get full content.]")
          else
            Except.ok ([], "Content (" ++ toString totalLength ++ " characters):\n---\n" ++ textContent)
        | none =>
          Except.ok ([], "Content (" ++ toString totalLength ++ " characters):\n---\n" ++ textContent)

/-- The field mask of the text-format fetch,
`body(content(paragraph(elements(textRun(content)))))` (`server.ts:350`),
applied to one content element: of a paragraph only its runs' `content`
survive; a table, section break or other element matches no field of the
mask and contributes nothing (whether the service returns such an element
emptied or omits it from `content` is immaterial to every consumer, since
both contribute no text; the emptied form is used here). -/
def maskTextElem : SElem → SElem
  | SElem.para p =>
    SElem.para
      { elements := p.elements.map fun els => els.map fun pe =>
          { textRun := pe.textRun.map fun tr => { content := tr.content } } }
  | _ => SElem.other

/-- The fetch of `readGoogleDoc` (`server.ts:344-356`), modelling the
documented field-mask semantics of the remote `documents.get`: with a
`tabId`, `includeTabsContent` is set and `fields` is `'*'`, so the snapshot
is the whole document; without one, tabs are not included and a `json` or
`markdown` read fetches the full body (`'*'`), while a `text` read fetches
with the paragraph-only mask, so its snapshot's body cannot contain table
elements. -/
def fetchReadSnapshot (fmt : ReadFormat) (tabId : Option String) (doc : DocRead) : DocRead :=
  match tabId with
  | some _ => doc
  | none =>
    match fmt with
    | ReadFormat.text =>
      { tabs := none,
        body := doc.body.map fun b => { content := b.content.map fun l => l.map maskTextElem } }
    | _ => { tabs := none, body := doc.body }

/-- The full `readGoogleDoc` tool on the remote document: the fetch
(`server.ts:352-356`) followed by the `execute` phase on the fetched
snapshot. -/
def readGoogleDocTool (stringify : ContentSource → String) (fmt : ReadFormat)
    (maxLength : Option Nat) (tabId : Option String) (doc : DocRead) : ToolResult :=
  readGoogleDoc stringify fmt maxLength tabId (fetchReadSnapshot fmt tabId doc)

/-! ### appendToGoogleDoc (`server.ts:567-637`) -/

/-- A content element as fetched for appending: only its `endIndex`. -/
structure EndElem where
  endIndex : Option Int := none
deriving Repr, DecidableEq

/-- A body as fetched for appending. -/
structure EndBody where
  content : Option (List EndElem) := none
deriving Repr, DecidableEq

/-- The `documentTab` payload as `appendToGoogleDoc` uses it. -/
structure AppendTabBody where
  body : Option EndBody := none
deriving Repr, DecidableEq

/-- The snapshot `appendToGoogleDoc` fetches. -/
structure DocAppend where
  tabs : Option (List (GTab AppendTabBody)) := none
  body : Option EndBody := none

/-- The insertion-index computation of `appendToGoogleDoc`
(`server.ts:590-612`): start from 1; when the body content's last element has
a truthy `endIndex` (so present and nonzero, by JS truthiness), insert just
before the final newline at `endIndex - 1`. -/
def computeAppendIndex (bodyContent : Option (List EndElem)) : Int :=
  match bodyContent with
  | none => 1
  | some content =>
    match content.getLast? with
    | some el =>
      match el.endIndex with
      | some e => if e ≠ 0 then e - 1 else 1
      | none => 1
    | none => 1

/-- The `execute` of `appendToGoogleDoc` (`server.ts:575-636`): resolve the tab
(when given) with the same two failure modes as every tab-aware tool, compute
the insertion index, prepend a newline exactly when `addNewlineIfNeeded` is
set and the index exceeds 1, and submit one `insertText` request. -/
def appendToGoogleDoc (documentId : String) (textToAppend : String)
    (addNewlineIfNeeded : Bool) (tabId : Option String) (doc : DocAppend) : ToolResult :=
  let bodyContentE : Except ToolError (Option (List EndElem)) :=
    match tabId with
    | some tid =>
      match tabsFind tid (doc.tabs.getD []) with
      | none =>
        Except.error (ToolError.user
          ("Tab with ID \"" ++ tid ++ "\" not found in document."))
      | some t =>
        match t.documentTab with
        | none =>
          Except.error (ToolError.user
            ("Tab \"" ++ tid ++ "\" does not have content (may not be a document tab)."))
        | some atb => Except.ok (atb.body.bind EndBody.content)
    | none => Except.ok (doc.body.bind EndBody.content)
  match bodyContentE with
  | Except.error e => Except.error e
  | Except.ok bodyContent =>
    let endIndex := computeAppendIndex bodyContent
    let textToInsert :=
      (if addNewlineIfNeeded && endIndex > 1 then "\n" else "") ++ textToAppend
    if textToInsert = "" then Except.ok ([], "Nothing to append.")
    else
      Except.ok ([Request.insertText endIndex tabId textToInsert],
        "Successfully appended text to " ++
          (match tabId with
           | some tid => "tab " ++ tid ++ " in "
           | none => "") ++ "document " ++ documentId ++ ".")

/-! ### insertText (`server.ts:639-681`) -/

/-- The `execute` of `insertText` (`server.ts:647-680`).  With a `tabId` the tab is
verified first (same two failure modes) and the request carries the tab id;
without one the request goes through the `GDocsHelpers.insertText` helper,
modelled from the spec as a single `InsertText` operation at the given
index. -/
def insertTextTool (documentId : String) (textToInsert : String) (index : Int)
    (tabId : Option String) (tabs : Option (List (GTab Unit))) : ToolResult :=
  match tabId with
  | some tid =>
    match tabsFind tid (tabs.getD []) with
    | none =>
      Except.error (ToolError.user
        ("Tab with ID \"" ++ tid ++ "\" not found in document."))
    | some t =>
      match t.documentTab with
      | none =>
        Except.error (ToolError.user
          ("Tab \"" ++ tid ++ "\" does not have content (may not be a document tab)."))
      | some _ =>
        Except.ok ([Request.insertText index (some tid) textToInsert],
          "Successfully inserted text at index " ++ toString index ++ " in tab " ++ tid ++ ".")
  | none =>
    Except.ok ([Request.insertText index none textToInsert],
      "Successfully inserted text at index " ++ toString index ++ ".")

/-! ### deleteRange (`server.ts:683-733`) -/

/-- The `execute` of `deleteRange` (`server.ts:694-732`): the invalid-range guard
runs first (`endIndex <= startIndex`), then the tab checks when a `tabId` is
given, then a single `deleteContentRange` request. -/
def deleteRangeTool (documentId : String) (startIndex endIndex : Int)
    (tabId : Option String) (tabs : Option (List (GTab Unit))) : ToolResult :=
  if endIndex ≤ startIndex then
    Except.error (ToolError.user "End index must be greater than start index for deletion.")
  else
    let emit : ToolResult :=
      Except.ok ([Request.deleteContentRange startIndex endIndex tabId],
        "Successfully deleted content in range " ++ toString startIndex ++ "-" ++
          toString endIndex ++
          (match tabId with
           | some tid => " in tab " ++ tid
           | none => "") ++ ".")
    match tabId with
    | some tid =>
      match tabsFind tid (tabs.getD []) with
      | none =>
        Except.error (ToolError.user
          ("Tab with ID \"" ++ tid ++ "\" not found in document."))
      | some t =>
        match t.documentTab with
        | none =>
          Except.error (ToolError.user
            ("Tab \"" ++ tid ++ "\" does not have content (may not be a document tab)."))
        | some _ => emit
    | none => emit

/-! ### Style intents and the style-request builders -/

/-- The sparse character-style intent (`TextStyleArgs` of `types.ts`, whose
file is not in the source tree): each attribute optional, mirroring the tool
parameters of `applyTextStyle` and `formatMatchingText`. -/
structure TextStyleArgs where
  bold : Option Bool := none
  italic : Option Bool := none
  underline : Option Bool := none
  strikethrough : Option Bool := none
  fontSize : Option Nat := none
  fontFamily : Option String := none
  foregroundColor : Option String := none
  backgroundColor : Option String := none
  linkUrl : Option String := none
deriving Repr, DecidableEq

/-- The attribute names present in a character-style intent. -/
def textStyleFields (s : TextStyleArgs) : List String :=
  (if s.bold.isSome then ["bold"] else []) ++
  (if s.italic.isSome then ["italic"] else []) ++
  (if s.underline.isSome then ["underline"] else []) ++
  (if s.strikethrough.isSome then ["strikethrough"] else []) ++
  (if s.fontSize.isSome then ["fontSize"] else []) ++
  (if s.fontFamily.isSome then ["weightedFontFamily"] else []) ++
  (if s.foregroundColor.isSome then ["foregroundColor"] else []) ++
  (if s.backgroundColor.isSome then ["backgroundColor"] else []) ++
  (if s.linkUrl.isSome then ["link"] else [])

/-- Modelled from the spec: `buildUpdateTextStyleRequest` of
`googleDocsApiHelpers.ts`, which is not in the source tree.  Spec SS4.4:
produces exactly one mutation operation whose `fields` mask lists only the
attributes present in the intent, and returns `None` when the intent has no
attributes set.  The call sites destructure the result as
`{ request, fields }`. -/
def buildUpdateTextStyleRequest (startIndex endIndex : Int) (style : TextStyleArgs) :
    Option (Request × List String) :=
  let fields := textStyleFields style
  if fields.isEmpty then none
  else some (Request.updateTextStyle startIndex endIndex fields, fields)

/-- The sparse paragraph-style intent (`ParagraphStyleArgs` of `types.ts`,
not in the source tree), modelled from the spec's attribute list for
paragraph-level intents: alignment, named style type, spacing. -/
structure ParagraphStyleArgs where
  alignment : Option String := none
  namedStyleType : Option String := none
  lineSpacing : Option Nat := none
deriving Repr, DecidableEq

/-- The attribute names present in a paragraph-style intent. -/
def paragraphStyleFields (s : ParagraphStyleArgs) : List String :=
  (if s.alignment.isSome then ["alignment"] else []) ++
  (if s.namedStyleType.isSome then ["namedStyleType"] else []) ++
  (if s.lineSpacing.isSome then ["lineSpacing"] else [])

/-- Modelled from the spec: `buildUpdateParagraphStyleRequest` of
`googleDocsApiHelpers.ts` (not in the source tree), same contract as the
text-style builder. -/
def buildUpdateParagraphStyleRequest (startIndex endIndex : Int)
    (style : ParagraphStyleArgs) : Option (Request × List String) :=
  let fields := paragraphStyleFields style
  if fields.isEmpty then none
  else some (Request.updateParagraphStyle startIndex endIndex fields, fields)

/-! ### applyTextStyle (`server.ts:737-783`) -/

/-- The target union of `applyTextStyle`: found text or an explicit range. -/
inductive StyleTarget where
  | byText (textToFind : String) (matchInstance : Nat)
  | byRange (startIndex endIndex : Int)
deriving Repr, DecidableEq

/-- The shared tail of `applyTextStyle` once the target range is resolved
(`server.ts:762-773`): the invalid-range guard, then the builder, whose
`none` result is surfaced as a successful no-op with no request. -/
def applyTextStyleResolved (startIndex endIndex : Int) (style : TextStyleArgs) : ToolResult :=
  if endIndex ≤ startIndex then
    Except.error (ToolError.user "End index must be greater than start index for styling.")
  else
    match buildUpdateTextStyleRequest startIndex endIndex style with
    | none => Except.ok ([], "No valid text styling options were provided.")
    | some (req, fields) =>
      Except.ok ([req],
        "Successfully applied text style (" ++ String.intercalate ", " fields ++
          ") to range " ++ toString startIndex ++ "-" ++ toString endIndex ++ ".")

/-- The `execute` of `applyTextStyle` (`server.ts:741-781`).  `findTextRange`
stands for the remote text search of `googleDocsApiHelpers.ts` (not in the
source tree); its result is the resolved target range. -/
def applyTextStyle (documentId : String) (target : StyleTarget) (style : TextStyleArgs)
    (findTextRange : String → Nat → Option TRange) : ToolResult :=
  match target with
  | StyleTarget.byText q inst =>
    match findTextRange q inst with
    | none =>
      Except.error (ToolError.user
        ("Could not find instance " ++ toString inst ++ " of text \"" ++ q ++ "\"."))
    | some r => applyTextStyleResolved r.startIndex r.endIndex style
  | StyleTarget.byRange s e => applyTextStyleResolved s e style

/-! ### applyParagraphStyle (`server.ts:785-889`) -/

/-- The target union of `applyParagraphStyle`: found text, an index inside the
paragraph, or an explicit range. -/
inductive ParaTarget where
  | byText (textToFind : String) (matchInstance : Option Nat)
  | byIndex (indexWithinParagraph : Int)
  | byRange (startIndex endIndex : Int)
deriving Repr, DecidableEq

/-- The shared tail of `applyParagraphStyle` once the paragraph range is
resolved (`server.ts:860-875`). -/
def applyParagraphStyleResolved (startIndex endIndex : Int)
    (style : ParagraphStyleArgs) : ToolResult :=
  if endIndex ≤ startIndex then
    Except.error (ToolError.user
      ("Invalid paragraph range: end index (" ++ toString endIndex ++
        ") must be greater than start index (" ++ toString startIndex ++ ")."))
  else
    match buildUpdateParagraphStyleRequest startIndex endIndex style with
    | none => Except.ok ([], "No valid paragraph styling options were provided.")
    | some (req, fields) =>
      Except.ok ([req],
        "Successfully applied paragraph styles (" ++ String.intercalate ", " fields ++
          ") to the paragraph.")

/-- The `execute` of `applyParagraphStyle` (`server.ts:789-888`).  `findTextRange`
and `getParagraphRange` stand for the remote locator helpers of
`googleDocsApiHelpers.ts` (not in the source tree).  The JS
`args.target.matchInstance || 1` coalesces both `undefined` and `0` to 1. -/
def applyParagraphStyle (documentId : String) (target : ParaTarget)
    (style : ParagraphStyleArgs) (findTextRange : String → Nat → Option TRange)
    (getParagraphRange : Int → Option TRange) : ToolResult :=
  match target with
  | ParaTarget.byText q inst =>
    let i : Nat :=
      match inst with
      | none => 1
      | some 0 => 1
      | some k => k
    match findTextRange q i with
    | none =>
      Except.error (ToolError.user ("Could not find \"" ++ q ++ "\" in the document."))
    | some textRange =>
      match getParagraphRange textRange.startIndex with
      | none =>
        Except.error (ToolError.user
          "Found the text but could not determine the paragraph boundaries.")
      | some pr => applyParagraphStyleResolved pr.startIndex pr.endIndex style
  | ParaTarget.byIndex idx =>
    match getParagraphRange idx with
    | none =>
      Except.error (ToolError.user
        ("Could not find paragraph containing index " ++ toString idx ++ "."))
    | some pr => applyParagraphStyleResolved pr.startIndex pr.endIndex style
  | ParaTarget.byRange s e => applyParagraphStyleResolved s e style

/-! ### The intentionally stubbed tools -/

/-- Parameters of `editTableCell` (`server.ts:919-928`). -/
structure EditTableCellArgs where
  documentId : String
  tableStartIndex : Int
  rowIndex : Nat
  columnIndex : Nat
  textContent : Option String := none
  textStyle : Option TextStyleArgs := none
  paragraphStyle : Option ParagraphStyleArgs := none
deriving Repr, DecidableEq

/-- The `execute` of `editTableCell` (`server.ts:929-945`): after acquiring the
client handle it unconditionally throws `NotImplementedError`; no document is
fetched and no request is built. -/
def editTableCell (args : EditTableCellArgs) : ToolResult :=
  Except.error (ToolError.notImplemented
    "Editing table cells is complex and not yet implemented.")

/-- Parameters of `findElement` (`server.ts:1400-1405`). -/
structure FindElementArgs where
  documentId : String
  textQuery : Option String := none
  elementType : Option String := none
deriving Repr, DecidableEq

/-- The `execute` of `findElement` (`server.ts:1406-1409`): unconditionally throws
`NotImplementedError` without touching any client. -/
def findElement (args : FindElementArgs) : ToolResult :=
  Except.error (ToolError.notImplemented
    "Finding elements by complex criteria is not yet implemented.")

/-! ### formatMatchingText (`server.ts:1413-1482`) -/

/-- A hexadecimal digit, the character class `[0-9A-Fa-f]`. -/
def isHexDigitChar (c : Char) : Bool :=
  ('0' ≤ c && c ≤ '9') || ('a' ≤ c && c ≤ 'f') || ('A' ≤ c && c ≤ 'F')

/-- The regex body `([0-9A-Fa-f]{3}|[0-9A-Fa-f]{6})$`: exactly 3 or 6 hex
digits. -/
def hexCore (cs : List Char) : Bool :=
  (cs.length == 3 || cs.length == 6) && cs.all isHexDigitChar

/-- The color validator regex `^#?([0-9A-Fa-f]{3}|[0-9A-Fa-f]{6})$` of
`formatMatchingText` (`server.ts:1428,1434`), over the string's characters.
When the string starts with `#` the optional `#?` must consume it, since `#`
is not a hex digit. -/
def validHexColorChars : List Char → Bool
  | [] => hexCore []
  | c :: rest => if c = '#' then hexCore rest else hexCore (c :: rest)

/-- The color validator on strings. -/
def validHexColor (s : String) : Bool := validHexColorChars s.data

/-- The parameters of `formatMatchingText` (`server.ts:1416-1440`), flat as
in the zod schema; `matchInstance` defaults to 1. -/
structure FormatMatchingTextArgs where
  documentId : String
  textToFind : String
  matchInstance : Nat := 1
  bold : Option Bool := none
  italic : Option Bool := none
  underline : Option Bool := none
  strikethrough : Option Bool := none
  fontSize : Option Nat := none
  fontFamily : Option String := none
  foregroundColor : Option String := none
  backgroundColor : Option String := none
  linkUrl : Option String := none
deriving Repr, DecidableEq

/-- Whether at least one formatting option is provided: the `.refine` at
`server.ts:1441-1443` (every key other than `documentId`, `textToFind`,
`matchInstance` that is defined). -/
def FormatMatchingTextArgs.hasStyleOption (a : FormatMatchingTextArgs) : Bool :=
  a.bold.isSome || a.italic.isSome || a.underline.isSome || a.strikethrough.isSome ||
  a.fontSize.isSome || a.fontFamily.isSome || a.foregroundColor.isSome ||
  a.backgroundColor.isSome || a.linkUrl.isSome

/-- The zod parameter validation of `formatMatchingText`
(`server.ts:1416-1443`), run by the framework before `execute`:
`textToFind` nonempty, `matchInstance >= 1`, `fontSize >= 1` when given,
colors matching the hex regex when given, `linkUrl` a valid URL when given
(`urlOk` stands for zod's `.url()` check), and at least one formatting
option. -/
def formatMatchingTextValidate (urlOk : String → Bool) (a : FormatMatchingTextArgs) : Bool :=
  (a.textToFind.length ≥ 1 : Bool) && (a.matchInstance ≥ 1 : Bool) &&
  (match a.fontSize with
   | some n => (n ≥ 1 : Bool)
   | none => true) &&
  (match a.foregroundColor with
   | some c => validHexColor c
   | none => true) &&
  (match a.backgroundColor with
   | some c => validHexColor c
   | none => true) &&
  (match a.linkUrl with
   | some u => urlOk u
   | none => true) &&
  a.hasStyleOption

/-- The style-parameter extraction of `formatMatchingText`
(`server.ts:1451-1460`): each defined argument copied into the intent. -/
def FormatMatchingTextArgs.styleParams (a : FormatMatchingTextArgs) : TextStyleArgs :=
  { bold := a.bold, italic := a.italic, underline := a.underline,
    strikethrough := a.strikethrough, fontSize := a.fontSize,
    fontFamily := a.fontFamily, foregroundColor := a.foregroundColor,
    backgroundColor := a.backgroundColor, linkUrl := a.linkUrl }

/-- The `execute` of `formatMatchingText` (`server.ts:1444-1481`): find the text,
build the style request, surface a builder `none` as the no-op message. -/
def formatMatchingTextExecute (findTextRange : String → Nat → Option TRange)
    (a : FormatMatchingTextArgs) : ToolResult :=
  match findTextRange a.textToFind a.matchInstance with
  | none =>
    Except.error (ToolError.user
      ("Could not find instance " ++ toString a.matchInstance ++ " of text \"" ++
        a.textToFind ++ "\"."))
  | some range =>
    match buildUpdateTextStyleRequest range.startIndex range.endIndex a.styleParams with
    | none => Except.ok ([], "No valid text styling options were provided.")
    | some (req, fields) =>
      Except.ok ([req],
        "Successfully applied formatting to instance " ++ toString a.matchInstance ++
          " of \"" ++ a.textToFind ++ "\".")

/-- The full `formatMatchingText` tool: the framework parses the parameters
against the zod schema and rejects the call (no `execute`, no remote call)
when validation fails; the exact framework error payload is abstracted to a
fixed user error. -/
def formatMatchingText (urlOk : String → Bool)
    (findTextRange : String → Nat → Option TRange)
    (a : FormatMatchingTextArgs) : ToolResult :=
  if formatMatchingTextValidate urlOk a then formatMatchingTextExecute findTextRange a
  else Except.error (ToolError.user "Invalid parameters.")

/-! ## Generic helpers about string accumulation -/

/-- Concatenation of a rendering function over a list. -/
def strConcatMap (f : α → String) : List α → String
  | [] => ""
  | x :: xs => f x ++ strConcatMap f xs

/-- A string repeated `n` times. -/
def strRepeat (s : String) : Nat → String
  | 0 => ""
  | n + 1 => s ++ strRepeat s n

/-- A left fold that appends a rendering of each element is the initial string
followed by the concatenation of the renderings. -/
theorem foldl_append_strConcatMap (f : α → String) (l : List α) (init : String) :
    l.foldl (fun acc x => acc ++ f x) init = init ++ strConcatMap f l := by
  induction l generalizing init with
  | nil => simp [strConcatMap]
  | cons x xs ih => simp [strConcatMap, ih, String.append_assoc]

/-- Concatenating a constant rendering repeats it once per element. -/
theorem strConcatMap_const (s : String) (l : List α) :
    strConcatMap (fun _ => s) l = strRepeat s l.length := by
  induction l with
  | nil => rfl
  | cons x xs ih => simp [strConcatMap, strRepeat, ih]

/-- A nonempty prepend never yields the empty string. -/
theorem newline_append_ne_empty (t : String) : "\n" ++ t ≠ "" := by
  intro h
  have := congrArg String.length h
  simp [String.length_append] at this
  exact absurd this.1 (by decide)

/-! ## Claim-side characterizations -/

/-- The set of strings the spec says the color validators accept: 3 or 6
hexadecimal digits with an optional leading `#`. -/
def specHexColor (s : String) : Prop :=
  ∃ core : List Char,
    (s.data = core ∨ s.data = '#' :: core) ∧
    (core.length = 3 ∨ core.length = 6) ∧
    ∀ c ∈ core, isHexDigitChar c = true

/-- Lemma: `hexCore` accepts exactly the 3- or 6-long all-hex character lists. -/
theorem hexCore_iff (l : List Char) :
    hexCore l = true ↔ (l.length = 3 ∨ l.length = 6) ∧ ∀ c ∈ l, isHexDigitChar c = true := by
  simp [hexCore, List.all_eq_true]

/-! ## The claims -/

/-- C4: for every input, `editTableCell` and `findElement` fail with a
`NotImplementedError` (whose result carries no mutation request) and never
return a success result, so they neither mutate the document nor silently
no-op. -/
theorem editTableCell_findElement_notImplemented :
    (∀ args : EditTableCellArgs,
      editTableCell args = Except.error (ToolError.notImplemented
        "Editing table cells is complex and not yet implemented.")) ∧
    (∀ args : FindElementArgs,
      findElement args = Except.error (ToolError.notImplemented
        "Finding elements by complex criteria is not yet implemented.")) ∧
    (∀ (args : EditTableCellArgs) (r : List Request × String), editTableCell args ≠ Except.ok r) ∧
    (∀ (args : FindElementArgs) (r : List Request × String), findElement args ≠ Except.ok r) :=
  ⟨fun _ => rfl, fun _ => rfl, fun _ _ h => Except.noConfusion h, fun _ _ h => Except.noConfusion h⟩

/-- C5: the color validators of `formatMatchingText` accept exactly the
strings of 3 or 6 hexadecimal digits with an optional leading `#` (so
`"FFFFFF"` without `#` is accepted too), and any other string supplied as
`foregroundColor` or `backgroundColor` is rejected by the parameter
validation, before `execute` and hence before any remote call. -/
theorem hexColorValidator_exact :
    (∀ s : String, validHexColor s = true ↔ specHexColor s) ∧
    (∀ (urlOk : String → Bool) (findTextRange : String → Nat → Option TRange)
      (a : FormatMatchingTextArgs) (c : String),
      a.foregroundColor = some c → validHexColor c = false →
      formatMatchingText urlOk findTextRange a =
        Except.error (ToolError.user "Invalid parameters.")) ∧
    (∀ (urlOk : String → Bool) (findTextRange : String → Nat → Option TRange)
      (a : FormatMatchingTextArgs) (c : String),
      a.backgroundColor = some c → validHexColor c = false →
      formatMatchingText urlOk findTextRange a =
        Except.error (ToolError.user "Invalid parameters.")) := by
  refine ⟨?_, ?_, ?_⟩
  · intro s
    unfold validHexColor specHexColor
    cases hd : s.data with
    | nil =>
      simp only [validHexColorChars]
      constructor
      · intro h
        exact absurd h (by decide)
      · rintro ⟨core, hcs, hlen, -⟩
        rcases hcs with rfl | habs
        · rcases hlen with h3 | h3 <;> simp at h3
        · exact List.noConfusion habs
    | cons c rest =>
      by_cases hch : c = '#'
      · subst hch
        rw [show validHexColorChars ('#' :: rest) = hexCore rest from by
          simp [validHexColorChars]]
        rw [hexCore_iff]
        constructor
        · rintro ⟨hlen, hall⟩
          exact ⟨rest, Or.inr rfl, hlen, hall⟩
        · rintro ⟨core, hcs, hlen, hall⟩
          rcases hcs with heq | heq
          · have hmem : ('#' : Char) ∈ core := heq ▸ List.mem_cons_self _ _
            have := hall _ hmem
            exact absurd this (by decide)
          · injection heq with heq1 heq2
            subst heq2
            exact ⟨hlen, hall⟩
      · rw [show validHexColorChars (c :: rest) = hexCore (c :: rest) from by
          simp [validHexColorChars, hch]]
        rw [hexCore_iff]
        constructor
        · rintro ⟨hlen, hall⟩
          exact ⟨c :: rest, Or.inl rfl, hlen, hall⟩
        · rintro ⟨core, hcs, hlen, hall⟩
          rcases hcs with heq | heq
          · subst heq
            exact ⟨hlen, hall⟩
          · have hc : c = '#' := by
              have := congrArg (fun l => l.headD ' ') heq
              simpa using this
            exact absurd hc hch
  · intro urlOk findTextRange a c hfg hbad
    unfold formatMatchingText
    have hval : formatMatchingTextValidate urlOk a = false := by
      unfold formatMatchingTextValidate
      rw [hfg]
      simp [hbad]
    rw [hval]
    simp
  · intro urlOk findTextRange a c hbg hbad
    unfold formatMatchingText
    have hval : formatMatchingTextValidate urlOk a = false := by
      unfold formatMatchingTextValidate
      rw [hbg]
      simp [hbad]
    rw [hval]
    simp

/-- Witness for C5 at concrete inputs: `"#FFF"`, `"#FFFFFF"` and bare
`"FFFFFF"` are accepted; `"#FFFF"` is not; a call carrying the invalid
foreground color `"#FFFF"` is rejected before `execute`. -/
theorem hexColorValidator_exact_witness :
    specHexColor "#FFF" ∧ specHexColor "#FFFFFF" ∧ specHexColor "FFFFFF" ∧
    validHexColor "#FFFF" = false ∧
    formatMatchingText (fun _ => true) (fun _ _ => some ⟨1, 5⟩)
      { documentId := "d", textToFind := "x", bold := some true,
        foregroundColor := some "#FFFF" } =
      Except.error (ToolError.user "Invalid parameters.") :=
  ⟨(hexColorValidator_exact.1 "#FFF").mp (by decide),
   (hexColorValidator_exact.1 "#FFFFFF").mp (by decide),
   (hexColorValidator_exact.1 "FFFFFF").mp (by decide),
   by decide,
   hexColorValidator_exact.2.1 (fun _ => true) (fun _ _ => some ⟨1, 5⟩)
     { documentId := "d", textToFind := "x", bold := some true,
       foregroundColor := some "#FFFF" } "#FFFF" rfl (by decide)⟩

/-- C10: with `addNewlineIfNeeded` at its default `true`,
`appendToGoogleDoc` prepends a newline exactly when the computed insertion
index (the last content element's `endIndex` minus 1) exceeds 1 — the fetched
snapshot contains only `endIndex` values and no text, so the decision cannot
depend on whether the document already ends with a newline — and the text is
inserted at that index through a single `insertText` request. -/
theorem appendToGoogleDoc_newline_unconditional :
    (∀ (documentId textToAppend : String) (doc : DocAppend),
      computeAppendIndex (doc.body.bind EndBody.content) > 1 →
      appendToGoogleDoc documentId textToAppend true none doc =
        Except.ok ([Request.insertText (computeAppendIndex (doc.body.bind EndBody.content))
            none ("\n" ++ textToAppend)],
          "Successfully appended text to document " ++ documentId ++ ".")) ∧
    (∀ (documentId textToAppend tid : String) (doc : DocAppend) (t : GTab AppendTabBody)
      (atb : AppendTabBody),
      tabsFind tid (doc.tabs.getD []) = some t → t.documentTab = some atb →
      computeAppendIndex (atb.body.bind EndBody.content) > 1 →
      appendToGoogleDoc documentId textToAppend true (some tid) doc =
        Except.ok ([Request.insertText (computeAppendIndex (atb.body.bind EndBody.content))
            (some tid) ("\n" ++ textToAppend)],
          "Successfully appended text to tab " ++ tid ++ " in document " ++ documentId ++ ".")) := by
  constructor
  · intro documentId textToAppend doc hidx
    simp only [appendToGoogleDoc]
    simp [hidx, newline_append_ne_empty]
  · intro documentId textToAppend tid doc t atb hfind hdt hidx
    simp only [appendToGoogleDoc]
    simp [hfind, hdt, hidx, newline_append_ne_empty]
    simp [String.append_assoc]
    simp [← String.append_assoc]

/-- Lemma: `tabsFind` returns `none` when the identifier occurs nowhere. -/
theorem tabsFind_of_not_mem {tid : String} {ts : List (GTab β)}
    (h : tid ∉ allTabIds ts) : tabsFind tid ts = none :=
  (tabsFind_eq_none_iff tid ts).mpr h

/-- C1: every document operation taking an explicit `tabId` (`readGoogleDoc`,
`appendToGoogleDoc`, `insertText`, `deleteRange`) fails with the
tab-not-found `UserError` when no tab in the fetched document carries that
id, and with the tab-has-no-content `UserError` when the matched tab has no
`documentTab`; the failure is the whole outcome, so no `batchUpdate` request
is submitted and the document is unchanged.  (For `deleteRange` the range
must be valid, since its own range guard runs first and the zod `.refine`
guarantees `endIndex > startIndex` before `execute`.) -/
theorem tabTargeted_ops_fail_before_batchUpdate :
    (∀ (stringify : ContentSource → String) (fmt : ReadFormat) (maxLength : Option Nat)
      (tid : String) (doc : DocRead),
      tid ∉ allTabIds (doc.tabs.getD []) →
      readGoogleDoc stringify fmt maxLength (some tid) doc =
        Except.error (ToolError.user ("Tab with ID \"" ++ tid ++ "\" not found in document."))) ∧
    (∀ (stringify : ContentSource → String) (fmt : ReadFormat) (maxLength : Option Nat)
      (tid : String) (doc : DocRead) (t : GTab DocumentTabBody),
      tabsFind tid (doc.tabs.getD []) = some t → t.documentTab = none →
      readGoogleDoc stringify fmt maxLength (some tid) doc =
        Except.error (ToolError.user
          ("Tab \"" ++ tid ++ "\" does not have content (may not be a document tab)."))) ∧
    (∀ (documentId textToAppend : String) (addNewline : Bool) (tid : String) (doc : DocAppend),
      tid ∉ allTabIds (doc.tabs.getD []) →
      appendToGoogleDoc documentId textToAppend addNewline (some tid) doc =
        Except.error (ToolError.user ("Tab with ID \"" ++ tid ++ "\" not found in document."))) ∧
    (∀ (documentId textToAppend : String) (addNewline : Bool) (tid : String) (doc : DocAppend)
      (t : GTab AppendTabBody),
      tabsFind tid (doc.tabs.getD []) = some t → t.documentTab = none →
      appendToGoogleDoc documentId textToAppend addNewline (some tid) doc =
        Except.error (ToolError.user
          ("Tab \"" ++ tid ++ "\" does not have content (may not be a document tab)."))) ∧
    (∀ (documentId textToInsert : String) (index : Int) (tid : String)
      (tabs : Option (List (GTab Unit))),
      tid ∉ allTabIds (tabs.getD []) →
      insertTextTool documentId textToInsert index (some tid) tabs =
        Except.error (ToolError.user ("Tab with ID \"" ++ tid ++ "\" not found in document."))) ∧
    (∀ (documentId textToInsert : String) (index : Int) (tid : String)
      (tabs : Option (List (GTab Unit))) (t : GTab Unit),
      tabsFind tid (tabs.getD []) = some t → t.documentTab = none →
      insertTextTool documentId textToInsert index (some tid) tabs =
        Except.error (ToolError.user
          ("Tab \"" ++ tid ++ "\" does not have content (may not be a document tab)."))) ∧
    (∀ (documentId : String) (startIndex endIndex : Int) (tid : String)
      (tabs : Option (List (GTab Unit))),
      startIndex < endIndex →
      tid ∉ allTabIds (tabs.getD []) →
      deleteRangeTool documentId startIndex endIndex (some tid) tabs =
        Except.error (ToolError.user ("Tab with ID \"" ++ tid ++ "\" not found in document."))) ∧
    (∀ (documentId : String) (startIndex endIndex : Int) (tid : String)
      (tabs : Option (List (GTab Unit))) (t : GTab Unit),
      startIndex < endIndex →
      tabsFind tid (tabs.getD []) = some t → t.documentTab = none →
      deleteRangeTool documentId startIndex endIndex (some tid) tabs =
        Except.error (ToolError.user
          ("Tab \"" ++ tid ++ "\" does not have content (may not be a document tab)."))) := by
  refine ⟨?_, ?_, ?_, ?_, ?_, ?_, ?_, ?_⟩
  · intro stringify fmt maxLength tid doc h
    simp [readGoogleDoc, resolveContentSource, tabsFind_of_not_mem h]
  · intro stringify fmt maxLength tid doc t hfind hdt
    simp [readGoogleDoc, resolveContentSource, hfind, hdt]
  · intro documentId textToAppend addNewline tid doc h
    simp [appendToGoogleDoc, tabsFind_of_not_mem h]
  · intro documentId textToAppend addNewline tid doc t hfind hdt
    simp [appendToGoogleDoc, hfind, hdt]
  · intro documentId textToInsert index tid tabs h
    simp [insertTextTool, tabsFind_of_not_mem h]
  · intro documentId textToInsert index tid tabs t hfind hdt
    simp [insertTextTool, hfind, hdt]
  · intro documentId startIndex endIndex tid tabs hrange h
    simp [deleteRangeTool, not_le.mpr hrange, tabsFind_of_not_mem h]
  · intro documentId startIndex endIndex tid tabs t hrange hfind hdt
    simp [deleteRangeTool, not_le.mpr hrange, hfind, hdt]

/-- Witness for C1: a document whose only tab is `"a"`, addressed as tab
`"zzz"` (not found) and, carrying no `documentTab`, addressed as `"a"`
(no content); both reads fail with the corresponding error. -/
theorem tabTargeted_ops_fail_before_batchUpdate_witness :
    readGoogleDoc (fun _ => "") ReadFormat.text none (some "zzz")
        { tabs := some [GTab.mk (some "a") none []] } =
      Except.error (ToolError.user ("Tab with ID \"" ++ "zzz" ++ "\" not found in document.")) ∧
    readGoogleDoc (fun _ => "") ReadFormat.text none (some "a")
        { tabs := some [GTab.mk (some "a") none []] } =
      Except.error (ToolError.user
        ("Tab \"" ++ "a" ++ "\" does not have content (may not be a document tab).")) :=
  ⟨tabTargeted_ops_fail_before_batchUpdate.1 (fun _ => "") ReadFormat.text none "zzz"
      { tabs := some [GTab.mk (some "a") none []] } (by simp [allTabIds]),
   tabTargeted_ops_fail_before_batchUpdate.2.1 (fun _ => "") ReadFormat.text none "a"
      { tabs := some [GTab.mk (some "a") none []] } (GTab.mk (some "a") none [])
      (by simp [tabsFind]) rfl⟩

/-- C2: whenever the resolved target range of `deleteRange`,
`applyTextStyle` or `applyParagraphStyle` has `endIndex <= startIndex`
(whether the range was given explicitly or produced by the text / paragraph
locators), the tool fails with its invalid-range `UserError`, before any
request is built or submitted. -/
theorem invalidRange_fails_before_batchUpdate :
    (∀ (documentId : String) (startIndex endIndex : Int) (tabId : Option String)
      (tabs : Option (List (GTab Unit))),
      endIndex ≤ startIndex →
      deleteRangeTool documentId startIndex endIndex tabId tabs =
        Except.error (ToolError.user
          "End index must be greater than start index for deletion.")) ∧
    (∀ (documentId : String) (startIndex endIndex : Int) (style : TextStyleArgs)
      (findTextRange : String → Nat → Option TRange),
      endIndex ≤ startIndex →
      applyTextStyle documentId (StyleTarget.byRange startIndex endIndex) style findTextRange =
        Except.error (ToolError.user
          "End index must be greater than start index for styling.")) ∧
    (∀ (documentId q : String) (inst : Nat) (style : TextStyleArgs)
      (findTextRange : String → Nat → Option TRange) (r : TRange),
      findTextRange q inst = some r → r.endIndex ≤ r.startIndex →
      applyTextStyle documentId (StyleTarget.byText q inst) style findTextRange =
        Except.error (ToolError.user
          "End index must be greater than start index for styling.")) ∧
    (∀ (documentId : String) (startIndex endIndex : Int) (style : ParagraphStyleArgs)
      (findTextRange : String → Nat → Option TRange) (getParagraphRange : Int → Option TRange),
      endIndex ≤ startIndex →
      applyParagraphStyle documentId (ParaTarget.byRange startIndex endIndex) style
          findTextRange getParagraphRange =
        Except.error (ToolError.user
          ("Invalid paragraph range: end index (" ++ toString endIndex ++
            ") must be greater than start index (" ++ toString startIndex ++ ")."))) ∧
    (∀ (documentId : String) (idx : Int) (style : ParagraphStyleArgs)
      (findTextRange : String → Nat → Option TRange) (getParagraphRange : Int → Option TRange)
      (pr : TRange),
      getParagraphRange idx = some pr → pr.endIndex ≤ pr.startIndex →
      applyParagraphStyle documentId (ParaTarget.byIndex idx) style
          findTextRange getParagraphRange =
        Except.error (ToolError.user
          ("Invalid paragraph range: end index (" ++ toString pr.endIndex ++
            ") must be greater than start index (" ++ toString pr.startIndex ++ ")."))) ∧
    (∀ (documentId q : String) (inst : Option Nat) (style : ParagraphStyleArgs)
      (findTextRange : String → Nat → Option TRange) (getParagraphRange : Int → Option TRange)
      (tr pr : TRange),
      findTextRange q
          (match inst with
           | none => 1
           | some 0 => 1
           | some k => k) = some tr →
      getParagraphRange tr.startIndex = some pr → pr.endIndex ≤ pr.startIndex →
      applyParagraphStyle documentId (ParaTarget.byText q inst) style
          findTextRange getParagraphRange =
        Except.error (ToolError.user
          ("Invalid paragraph range: end index (" ++ toString pr.endIndex ++
            ") must be greater than start index (" ++ toString pr.startIndex ++ ")."))) := by
  refine ⟨?_, ?_, ?_, ?_, ?_, ?_⟩
  · intro documentId startIndex endIndex tabId tabs h
    simp [deleteRangeTool, h]
  · intro documentId startIndex endIndex style findTextRange h
    simp [applyTextStyle, applyTextStyleResolved, h]
  · intro documentId q inst style findTextRange r hfind h
    simp [applyTextStyle, hfind, applyTextStyleResolved, h]
  · intro documentId startIndex endIndex style findTextRange getParagraphRange h
    simp [applyParagraphStyle, applyParagraphStyleResolved, h]
  · intro documentId idx style findTextRange getParagraphRange pr hpara h
    simp [applyParagraphStyle, hpara, applyParagraphStyleResolved, h]
  · intro documentId q inst style findTextRange getParagraphRange tr pr hfind hpara h
    simp [applyParagraphStyle, hfind, hpara, applyParagraphStyleResolved, h]

/-- Witness for C2: deleting range 7-7 and styling range 5-3 both fail with
the invalid-range errors. -/
theorem invalidRange_fails_before_batchUpdate_witness :
    deleteRangeTool "d" 7 7 none none =
      Except.error (ToolError.user
        "End index must be greater than start index for deletion.") ∧
    applyTextStyle "d" (StyleTarget.byRange 5 3) { bold := some true } (fun _ _ => none) =
      Except.error (ToolError.user
        "End index must be greater than start index for styling.") :=
  ⟨invalidRange_fails_before_batchUpdate.1 "d" 7 7 none none (by decide),
   invalidRange_fails_before_batchUpdate.2.1 "d" 5 3 { bold := some true }
     (fun _ _ => none) (by decide)⟩

/-- Counterexample to C3: invoking `formatMatchingText` with no style
attribute set does not return the no-op success message — the `.refine` of
its zod schema (`server.ts:1441-1443`) demands at least one formatting
option, so the call is rejected as a parameter-validation error before
`execute` runs. -/
theorem formatMatchingText_emptyStyle_is_error :
    formatMatchingText (fun _ => true) (fun _ _ => some ⟨1, 5⟩)
      { documentId := "d", textToFind := "x" } =
      Except.error (ToolError.user "Invalid parameters.") := rfl

/-- C3 (amended): for a valid target range, `applyTextStyle` with an empty
style intent submits no request and returns the message `"No valid text
styling options were provided."` as a success; `formatMatchingText`,
however, rejects a call with no style attribute at parameter validation
("at least one formatting option must be provided"), so it errors before
`execute` — in both cases no `batchUpdate` is submitted. -/
theorem emptyStyleIntent_behavior :
    (∀ (documentId : String) (startIndex endIndex : Int)
      (findTextRange : String → Nat → Option TRange),
      startIndex < endIndex →
      applyTextStyle documentId (StyleTarget.byRange startIndex endIndex) {} findTextRange =
        Except.ok ([], "No valid text styling options were provided.")) ∧
    (∀ (documentId q : String) (inst : Nat)
      (findTextRange : String → Nat → Option TRange) (r : TRange),
      findTextRange q inst = some r → r.startIndex < r.endIndex →
      applyTextStyle documentId (StyleTarget.byText q inst) {} findTextRange =
        Except.ok ([], "No valid text styling options were provided.")) ∧
    (∀ (urlOk : String → Bool) (findTextRange : String → Nat → Option TRange)
      (a : FormatMatchingTextArgs),
      a.hasStyleOption = false →
      formatMatchingText urlOk findTextRange a =
        Except.error (ToolError.user "Invalid parameters.")) := by
  refine ⟨?_, ?_, ?_⟩
  · intro documentId startIndex endIndex findTextRange h
    simp [applyTextStyle, applyTextStyleResolved, not_le.mpr h,
      buildUpdateTextStyleRequest, textStyleFields]
  · intro documentId q inst findTextRange r hfind h
    simp [applyTextStyle, hfind, applyTextStyleResolved, not_le.mpr h,
      buildUpdateTextStyleRequest, textStyleFields]
  · intro urlOk findTextRange a h
    have hval : formatMatchingTextValidate urlOk a = false := by
      unfold formatMatchingTextValidate
      simp [h]
    simp [formatMatchingText, hval]

/-- Witness for C3 at concrete inputs: the empty intent on range 1-5 is the
no-op success, and the empty-intent legacy call is the validation error. -/
theorem emptyStyleIntent_behavior_witness :
    applyTextStyle "d" (StyleTarget.byRange 1 5) {} (fun _ _ => none) =
      Except.ok ([], "No valid text styling options were provided.") ∧
    formatMatchingText (fun _ => true) (fun _ _ => some ⟨1, 5⟩)
      { documentId := "d", textToFind := "y" } =
      Except.error (ToolError.user "Invalid parameters.") :=
  ⟨emptyStyleIntent_behavior.1 "d" 1 5 (fun _ _ => none) (by decide),
   emptyStyleIntent_behavior.2.2 (fun _ => true) (fun _ _ => some ⟨1, 5⟩)
     { documentId := "d", textToFind := "y" } rfl⟩

/-- Witness for C10: a document whose last element ends at index 5 (so the
insertion index is 4) gets the newline prepended, whatever its (unfetched)
text was. -/
theorem appendToGoogleDoc_newline_unconditional_witness :
    appendToGoogleDoc "doc1" "tail" true none
        { body := some { content := some [{ endIndex := some 5 }] } } =
      Except.ok ([Request.insertText 4 none ("\n" ++ "tail")],
        "Successfully appended text to document doc1.") :=
  appendToGoogleDoc_newline_unconditional.1 "doc1" "tail"
    { body := some { content := some [{ endIndex := some 5 }] } } (by decide)

/-- The non-first rows of a table (all carrying cell arrays) each contribute
their pipe line and no separator. -/
theorem tableRowsToMarkdown_false (rest : List (List TableCellRep)) :
    tableRowsToMarkdown (rest.map some) false =
      strConcatMap (fun cells => tableRowLine cells ++ "\n") rest := by
  induction rest with
  | nil => rfl
  | cons cells rs ih =>
    simp [tableRowsToMarkdown, strConcatMap, ih, String.append_assoc]

/-- Counterexample to C6: a table with exactly one row whose `tableCells`
field is absent renders as `"\n\n"`, which contains no pipe-delimited line at
all — the row loop skips a row without `tableCells`
(`server.ts:292`), so "one pipe-delimited line per table row" fails. -/
theorem tableMarkdown_rowWithoutCells_counterexample :
    convertTableToMarkdown (some [(none : TableRowRep)]) = "\n\n" ∧
    ("\n\n" : String).data.contains '|' = false := ⟨by decide, by decide⟩

/-- C6 (amended): for every table with at least one row in which every row
carries a cell array, the projection emits, after a leading newline, one
pipe-delimited line per row, with the header-separator line (`|` followed by
` --- |` once per cell of the first row) immediately after the first row's
line, regardless of the cells' contents, and a trailing newline; a table
with no rows (or no `tableRows` field) projects to the empty string.  (A row
lacking a cell array is skipped entirely, per the counterexample.) -/
theorem tableMarkdown_shape :
    (∀ (first : List TableCellRep) (rest : List (List TableCellRep)),
      convertTableToMarkdown (some (some first :: rest.map some)) =
        "\n" ++ tableRowLine first ++ "\n" ++ tableSeparatorLine first ++ "\n" ++
          strConcatMap (fun cells => tableRowLine cells ++ "\n") rest ++ "\n") ∧
    (∀ cells : List TableCellRep,
      tableRowLine cells = "|" ++ strConcatMap (fun c => " " ++ tableCellText c ++ " |") cells) ∧
    (∀ cells : List TableCellRep,
      tableSeparatorLine cells = "|" ++ strRepeat " --- |" cells.length) ∧
    convertTableToMarkdown none = "" ∧
    convertTableToMarkdown (some []) = "" := by
  refine ⟨?_, ?_, ?_, rfl, rfl⟩
  · intro first rest
    have hlen : ((some first :: rest.map some : List TableRowRep).length == 0) = false := by
      simp
    simp only [convertTableToMarkdown, hlen, Bool.false_eq_true, if_false,
      tableRowsToMarkdown, if_true, tableRowsToMarkdown_false]
    simp [String.append_assoc]
  · intro cells
    have hbody : (fun (acc : String) (c : TableCellRep) => acc ++ " " ++ tableCellText c ++ " |") =
        fun acc c => acc ++ (" " ++ tableCellText c ++ " |") := by
      funext acc c
      simp [String.append_assoc]
    rw [tableRowLine, hbody, foldl_append_strConcatMap]
  · intro cells
    have hbody : (fun (acc : String) (_ : TableCellRep) => acc ++ " --- |") =
        fun acc (_ : TableCellRep) => acc ++ (fun (_ : TableCellRep) => " --- |") default := by
      funext acc c
      rfl
    rw [tableSeparatorLine, foldl_append_strConcatMap (fun _ => " --- |") cells "|",
      strConcatMap_const]

/-- Counterexample to C7: a `HEADING_2` paragraph whose only run is a single
space renders as `"\n"` (the blank-paragraph branch), with no `#` at all,
instead of hashes plus a space plus the (empty) trimmed text. -/
theorem blankHeading_counterexample :
    convertParagraphToMarkdown
        { elements := some [{ textRun := some { content := some " " } }],
          paragraphStyle := some { namedStyleType := some (NamedStyle.headingN 2) } } = "\n" ∧
    ("\n" : String).data.contains '#' = false := ⟨by decide, by decide⟩

/-- C7 (amended): the markdown projection rules, for paragraphs whose
concatenated run text does not trim to the empty string (a paragraph whose
text trims empty renders as a single newline instead, per the
counterexample): `HEADING_n` renders as `min n 6` hashes plus a space plus
the trimmed text, `TITLE` as one hash, `SUBTITLE` as two; a bulleted
non-heading paragraph renders as `"- "` plus the trimmed text; a bold run is
wrapped in `**`, an italic run in `*`, a bold-italic run in `***`, an
underlined non-link run in `<u>...</u>`, a strikethrough run in `~~`, a
linked run renders as `[text](url)`; a section break renders as the
horizontal rule `---` (with blank lines around it). -/
theorem markdownProjection_rules :
    (∀ (p : Paragraph) (n : Nat),
      headingLevel p = some n → jsTrim (paragraphMdText p) ≠ "" →
      convertParagraphToMarkdown p =
        "".pushn '#' (min n 6) ++ " " ++ jsTrim (paragraphMdText p) ++ "\n\n") ∧
    (∀ (elements : Option (List ParagraphElement)) (bullet : Option Bullet) (n : Nat),
      headingLevel
        { elements := elements,
          paragraphStyle := some { namedStyleType := some (NamedStyle.headingN n) },
          bullet := bullet } = some n) ∧
    (∀ (elements : Option (List ParagraphElement)) (bullet : Option Bullet),
      headingLevel
        { elements := elements,
          paragraphStyle := some { namedStyleType := some NamedStyle.title },
          bullet := bullet } = some 1) ∧
    (∀ (elements : Option (List ParagraphElement)) (bullet : Option Bullet),
      headingLevel
        { elements := elements,
          paragraphStyle := some { namedStyleType := some NamedStyle.subtitle },
          bullet := bullet } = some 2) ∧
    (∀ p : Paragraph,
      headingLevel p = none → p.bullet.isSome = true → jsTrim (paragraphMdText p) ≠ "" →
      convertParagraphToMarkdown p = "- " ++ jsTrim (paragraphMdText p) ++ "\n") ∧
    (∀ c : String,
      convertTextRunToMarkdown { content := some c, textStyle := some { bold := true } } =
        "**" ++ c ++ "**") ∧
    (∀ c : String,
      convertTextRunToMarkdown { content := some c, textStyle := some { italic := true } } =
        "*" ++ c ++ "*") ∧
    (∀ c : String,
      convertTextRunToMarkdown
          { content := some c, textStyle := some { bold := true, italic := true } } =
        "***" ++ c ++ "***") ∧
    (∀ c : String,
      convertTextRunToMarkdown { content := some c, textStyle := some { underline := true } } =
        "<u>" ++ c ++ "</u>") ∧
    (∀ c : String,
      convertTextRunToMarkdown
          { content := some c, textStyle := some { strikethrough := true } } =
        "~~" ++ c ++ "~~") ∧
    (∀ c url : String,
      convertTextRunToMarkdown { content := some c, textStyle := some { link := some url } } =
        "[" ++ c ++ "](" ++ url ++ ")") ∧
    elemToMarkdown SElem.secBreak = "\n---\n\n" := by
  refine ⟨?_, fun _ _ _ => rfl, fun _ _ => rfl, fun _ _ => rfl, ?_,
    fun _ => rfl, fun _ => rfl, fun _ => rfl, fun _ => rfl, fun _ => rfl,
    fun _ _ => rfl, rfl⟩
  · intro p n hlev htrim
    simp [convertParagraphToMarkdown, hlev, htrim]
  · intro p hlev hbul htrim
    simp [convertParagraphToMarkdown, hlev, hbul, htrim]

/-- The per-element text contribution of the text-format reader. -/
def extractElemText : SElem → String
  | SElem.para p => paragraphRunText p
  | SElem.table rows => tableRunText rows
  | _ => ""

/-- The per-cell-element text contribution inside the table walk (only
paragraphs contribute). -/
def cellElemText : SElem → String
  | SElem.para p => paragraphRunText p
  | _ => ""

/-- The text the table walk collects from one cell. -/
def cellParaText (cell : TableCellRep) : String :=
  strConcatMap cellElemText (cell.getD [])

/-- The text the table walk collects from one row. -/
def rowParaText (row : TableRowRep) : String :=
  strConcatMap cellParaText (row.getD [])

mutual

/-- Claim-side rendering for C8: the concatenation of all text-run content in
document order, recursing into every table cell at any depth. -/
def specAllRunText : List SElem → String
  | [] => ""
  | SElem.para p :: rest => paragraphRunText p ++ specAllRunText rest
  | SElem.table none :: rest => specAllRunText rest
  | SElem.table (some rows) :: rest => specAllRunRows rows ++ specAllRunText rest
  | SElem.secBreak :: rest => specAllRunText rest
  | SElem.other :: rest => specAllRunText rest

/-- Claim-side rendering of a table's rows. -/
def specAllRunRows : List TableRowRep → String
  | [] => ""
  | none :: rs => specAllRunRows rs
  | some cells :: rs => specAllRunCells cells ++ specAllRunRows rs

/-- Claim-side rendering of a row's cells. -/
def specAllRunCells : List TableCellRep → String
  | [] => ""
  | none :: cs => specAllRunCells cs
  | some content :: cs => specAllRunText content ++ specAllRunCells cs

end

/-- Whether a cell's content contains no (nested) table element. -/
def cellHasNoTable : TableCellRep → Bool
  | none => true
  | some content =>
    content.all fun e =>
      match e with
      | SElem.table _ => false
      | _ => true

/-- Whether an element's table cells (if it is a table) contain no nested
table. -/
def elemCellsNoTables : SElem → Bool
  | SElem.table none => true
  | SElem.table (some rows) =>
    rows.all fun r =>
      match r with
      | none => true
      | some cells => cells.all cellHasNoTable
  | _ => true

/-- The innermost fold of the table walk collects one cell's paragraph
text. -/
theorem cellFold_eq (cell : TableCellRep) (init : String) :
    (cell.getD []).foldl
      (fun acc3 cellElement =>
        match cellElement with
        | SElem.para p => acc3 ++ paragraphRunText p
        | _ => acc3) init = init ++ cellParaText cell := by
  have hbody : (fun (acc3 : String) (cellElement : SElem) =>
      match cellElement with
      | SElem.para p => acc3 ++ paragraphRunText p
      | _ => acc3) = fun acc3 ce => acc3 ++ cellElemText ce := by
    funext acc3 ce
    cases ce <;> simp [cellElemText]
  rw [hbody, foldl_append_strConcatMap]
  rfl

/-- The middle fold of the table walk collects one row's cell text. -/
theorem rowFold_eq (row : TableRowRep) (init : String) :
    (row.getD []).foldl
      (fun acc2 cell =>
        (cell.getD []).foldl
          (fun acc3 cellElement =>
            match cellElement with
            | SElem.para p => acc3 ++ paragraphRunText p
            | _ => acc3) acc2) init = init ++ rowParaText row := by
  have hbody : (fun (acc2 : String) (cell : TableCellRep) =>
      (cell.getD []).foldl
        (fun acc3 cellElement =>
          match cellElement with
          | SElem.para p => acc3 ++ paragraphRunText p
          | _ => acc3) acc2) = fun acc2 cell => acc2 ++ cellParaText cell := by
    funext acc2 cell
    exact cellFold_eq cell acc2
  rw [hbody, foldl_append_strConcatMap]
  rfl

/-- The table walk of the text reader, flattened. -/
theorem tableRunText_eq (tableRows : Option (List TableRowRep)) :
    tableRunText tableRows = strConcatMap rowParaText (tableRows.getD []) := by
  have hbody : (fun (acc : String) (row : TableRowRep) =>
      (row.getD []).foldl
        (fun acc2 cell =>
          (cell.getD []).foldl
            (fun acc3 cellElement =>
              match cellElement with
              | SElem.para p => acc3 ++ paragraphRunText p
              | _ => acc3) acc2) acc) = fun acc row => acc ++ rowParaText row := by
    funext acc row
    exact rowFold_eq row acc
  rw [tableRunText, hbody, foldl_append_strConcatMap]
  simp

/-- The text reader's accumulation, flattened. -/
theorem extractText_eq (content : List SElem) :
    extractText content = strConcatMap extractElemText content := by
  have hbody : (fun (acc : String) (el : SElem) =>
      match el with
      | SElem.para p => acc ++ paragraphRunText p
      | SElem.table rows => acc ++ tableRunText rows
      | _ => acc) = fun acc el => acc ++ extractElemText el := by
    funext acc el
    cases el <;> simp [extractElemText]
  rw [extractText, hbody, foldl_append_strConcatMap]
  simp

/-- The paragraph holding the single run `"X"`, used in the C8
counterexample. -/
def paraX : Paragraph :=
  { elements := some [{ textRun := some { content := some "X" } }] }

/-- A 1x1 table whose only cell holds a nested 1x1 table whose only cell
holds the paragraph `"X"`. -/
def nestedTableElem : SElem :=
  SElem.table (some [some [some
    [SElem.table (some [some [some [SElem.para paraX]]])]]])

/-- The paragraph holding the single run `"A"`, used in the C8
counterexample. -/
def paraA0 : Paragraph :=
  { elements := some [{ textRun := some { content := some "A" } }] }

/-- A 1x1 table whose only cell holds the paragraph `"X"`. -/
def tableX : SElem :=
  SElem.table (some [some [some [SElem.para paraX]]])

/-- Claim-side rendering for the default (no-tab) text read: the
concatenation of the paragraphs' run text only, in document order — no table
element contributes, since the fetch mask strips them from the snapshot. -/
def paragraphOnlyText : List SElem → String
  | [] => ""
  | SElem.para p :: rest => paragraphRunText p ++ paragraphOnlyText rest
  | _ :: rest => paragraphOnlyText rest

/-- Masking a paragraph down to its runs' `content` preserves its run
text. -/
theorem paragraphRunText_mask (p : Paragraph) :
    paragraphRunText
      { elements := p.elements.map fun els => els.map fun pe =>
          { textRun := pe.textRun.map fun tr => ({ content := tr.content } : TextRun) } } =
    paragraphRunText p := by
  unfold paragraphRunText
  cases p.elements with
  | none => rfl
  | some els =>
    simp only [Option.map, Option.getD]
    rw [List.foldl_map]
    congr 1
    funext acc pe
    cases pe.textRun <;> rfl

/-- Text extraction on a mask-filtered snapshot collects exactly the
paragraph run text of the original content. -/
theorem extractText_mask (content : List SElem) :
    extractText (content.map maskTextElem) = paragraphOnlyText content := by
  rw [extractText_eq]
  induction content with
  | nil => rfl
  | cons el rest ih =>
    cases el with
    | para p =>
      simp only [List.map, strConcatMap, extractElemText, maskTextElem, paragraphOnlyText, ih]
      rw [paragraphRunText_mask]
    | table rows =>
      simp only [List.map, strConcatMap, maskTextElem, extractElemText, paragraphOnlyText, ih]
      simp
    | secBreak =>
      simp only [List.map, strConcatMap, maskTextElem, extractElemText, paragraphOnlyText, ih]
      simp
    | other =>
      simp only [List.map, strConcatMap, maskTextElem, extractElemText, paragraphOnlyText, ih]
      simp

/-- Counterexample to C8: a document holding the paragraph `"A"` and a 1x1
table whose cell holds `"X"`, read with `format = text` and no `tabId`,
returns only `"A"` — the fetch mask
`body(content(paragraph(elements(textRun(content)))))` (`server.ts:350`)
strips the table from the snapshot, so its cell text never reaches the
projection, although the execute phase itself would have collected `"AX"`
from an unmasked snapshot.  A tab-targeted read is fetched whole but still
drops text inside a table nested within a cell (`server.ts:420-425`): a tab
whose only text sits in such a nested table reads as empty.  The claim-side
full concatenation yields `"AX"` and `"X"` respectively. -/
theorem defaultTextRead_dropsCellText_counterexample :
    readGoogleDocTool (fun _ => "") ReadFormat.text none none
        { body := some { content := some [SElem.para paraA0, tableX] } } =
      Except.ok ([], "Content (1 characters):\n---\nA") ∧
    specAllRunText [SElem.para paraA0, tableX] = "AX" ∧
    extractText [SElem.para paraA0, tableX] = "AX" ∧
    readGoogleDocTool (fun _ => "") ReadFormat.text none (some "t")
        { tabs := some [GTab.mk (some "t")
            (some { body := some { content := some [nestedTableElem] } }) []] } =
      Except.ok ([], "Document found, but appears empty.") ∧
    specAllRunText [nestedTableElem] = "X" := by
  refine ⟨rfl, ?_, rfl, ?_, ?_⟩
  · simp [paraA0, paraX, tableX, specAllRunText, specAllRunRows, specAllRunCells,
      paragraphRunText]
  · have hfind : tabsFind "t" [GTab.mk (some "t")
        (some ({ body := some { content := some [nestedTableElem] } } : DocumentTabBody)) []] =
        some (GTab.mk (some "t")
          (some ({ body := some { content := some [nestedTableElem] } } : DocumentTabBody)) []) := by
      simp [tabsFind]
    simp only [readGoogleDocTool, fetchReadSnapshot, readGoogleDoc, resolveContentSource,
      Option.getD, hfind]
    rfl
  · simp [nestedTableElem, paraX, specAllRunText, specAllRunRows, specAllRunCells,
      paragraphRunText]

/-- C8 (amended): for `format = text`, a read without a `tabId` fetches with
the paragraph-only field mask, so its result is the concatenation of the
paragraphs' text-run content in document order with all styling dropped and
no table-cell text at all; a tab-targeted text read fetches the whole
document and returns the concatenation of all text-run content including
the text inside every table cell (walking rows and cells in order),
except text inside tables nested within cells, which the one-level cell
walk drops. -/
theorem textProjection_fetchMask :
    (∀ content : List SElem,
      extractText (content.map maskTextElem) = paragraphOnlyText content) ∧
    (∀ (stringify : ContentSource → String) (doc : DocRead),
      jsTrim (paragraphOnlyText ((doc.body.bind Body.content).getD [])) ≠ "" →
      readGoogleDocTool stringify ReadFormat.text none none doc =
        Except.ok ([], "Content (" ++
          toString (paragraphOnlyText ((doc.body.bind Body.content).getD [])).length ++
          " characters):\n---\n" ++ paragraphOnlyText ((doc.body.bind Body.content).getD []))) ∧
    (∀ content : List SElem,
      content.all elemCellsNoTables = true →
      extractText content = specAllRunText content) ∧
    (∀ (stringify : ContentSource → String) (doc : DocRead) (tid : String)
      (t : GTab DocumentTabBody) (dtb : DocumentTabBody),
      tabsFind tid (doc.tabs.getD []) = some t → t.documentTab = some dtb →
      ((dtb.body.bind Body.content).getD []).all elemCellsNoTables = true →
      jsTrim (extractText ((dtb.body.bind Body.content).getD [])) ≠ "" →
      readGoogleDocTool stringify ReadFormat.text none (some tid) doc =
        Except.ok ([], "Content (" ++
          toString (specAllRunText ((dtb.body.bind Body.content).getD [])).length ++
          " characters):\n---\n" ++ specAllRunText ((dtb.body.bind Body.content).getD []))) := by
  have hcell : ∀ cell : TableCellRep, cellHasNoTable cell = true →
      cellParaText cell = specAllRunText (cell.getD []) := by
    intro cell hc
    match cell with
    | none => simp [cellParaText, strConcatMap, specAllRunText]
    | some content =>
      simp only [cellHasNoTable, List.all_eq_true] at hc
      simp only [Option.getD]
      induction content with
      | nil => simp [cellParaText, strConcatMap, specAllRunText]
      | cons e cs ih =>
        have he := hc e (List.mem_cons_self e cs)
        have hcs : ∀ x ∈ cs, (match x with
            | SElem.table _ => false
            | _ => true) = true := fun x hx => hc x (List.mem_cons_of_mem e hx)
        cases e with
        | para p =>
          simp only [cellParaText, Option.getD, strConcatMap, cellElemText, specAllRunText]
          rw [show strConcatMap cellElemText cs = specAllRunText cs from ih hcs]
        | table rows => simp at he
        | secBreak =>
          simp only [cellParaText, Option.getD, strConcatMap, cellElemText, specAllRunText]
          rw [show strConcatMap cellElemText cs = specAllRunText cs from ih hcs]
          simp
        | other =>
          simp only [cellParaText, Option.getD, strConcatMap, cellElemText, specAllRunText]
          rw [show strConcatMap cellElemText cs = specAllRunText cs from ih hcs]
          simp
  have hcells : ∀ cells : List TableCellRep,
      cells.all cellHasNoTable = true →
      strConcatMap cellParaText cells = specAllRunCells cells := by
    intro cells hall
    simp only [List.all_eq_true] at hall
    induction cells with
    | nil => simp [strConcatMap, specAllRunCells]
    | cons c cs ih =>
      have hc := hall c (List.mem_cons_self c cs)
      have hcs : ∀ x ∈ cs, cellHasNoTable x = true :=
        fun x hx => hall x (List.mem_cons_of_mem c hx)
      cases c with
      | none =>
        simp only [strConcatMap, specAllRunCells, ih hcs]
        have : cellParaText none = "" := rfl
        rw [this]
        simp
      | some content =>
        simp only [strConcatMap, specAllRunCells, ih hcs]
        rw [hcell (some content) hc]
        rfl
  have hrows : ∀ rows : List TableRowRep,
      (rows.all fun r =>
        match r with
        | none => true
        | some cells => cells.all cellHasNoTable) = true →
      strConcatMap rowParaText rows = specAllRunRows rows := by
    intro rows hall
    simp only [List.all_eq_true] at hall
    induction rows with
    | nil => simp [strConcatMap, specAllRunRows]
    | cons r rs ih =>
      have hr := hall r (List.mem_cons_self r rs)
      have hrs : ∀ x ∈ rs, (match x with
          | none => true
          | some cells => cells.all cellHasNoTable) = true :=
        fun x hx => hall x (List.mem_cons_of_mem r hx)
      cases r with
      | none =>
        simp only [strConcatMap, specAllRunRows, ih hrs]
        have : rowParaText none = "" := rfl
        rw [this]
        simp
      | some cells =>
        simp only at hr
        simp only [strConcatMap, specAllRunRows, ih hrs, rowParaText, Option.getD]
        rw [hcells cells hr]
  have hmain : ∀ content : List SElem,
      content.all elemCellsNoTables = true →
      extractText content = specAllRunText content := by
    intro content hall
    rw [extractText_eq]
    simp only [List.all_eq_true] at hall
    induction content with
    | nil => simp [strConcatMap, specAllRunText]
    | cons el rest ih =>
      have hel := hall el (List.mem_cons_self el rest)
      have hrest : ∀ x ∈ rest, elemCellsNoTables x = true :=
        fun x hx => hall x (List.mem_cons_of_mem el hx)
      cases el with
      | para p =>
        simp only [strConcatMap, extractElemText, specAllRunText, ih hrest]
      | table rows =>
        cases rows with
        | none =>
          simp only [strConcatMap, extractElemText, specAllRunText, ih hrest]
          rw [tableRunText_eq]
          simp [strConcatMap]
        | some rs =>
          simp only [elemCellsNoTables] at hel
          simp only [strConcatMap, extractElemText, specAllRunText, ih hrest]
          rw [tableRunText_eq]
          simp only [Option.getD]
          rw [hrows rs hel]
      | secBreak =>
        simp only [strConcatMap, extractElemText, specAllRunText, ih hrest]
        simp
      | other =>
        simp only [strConcatMap, extractElemText, specAllRunText, ih hrest]
        simp
  refine ⟨extractText_mask, ?_, hmain, ?_⟩
  · intro stringify doc htrim
    have hbody : ((doc.body.map fun b =>
        ({ content := b.content.map fun l => l.map maskTextElem } : Body)).bind
          Body.content).getD [] =
        ((doc.body.bind Body.content).getD []).map maskTextElem := by
      cases doc.body with
      | none => rfl
      | some b =>
        obtain ⟨c⟩ := b
        cases c <;> rfl
    simp only [readGoogleDocTool, fetchReadSnapshot, readGoogleDoc, resolveContentSource]
    rw [hbody, extractText_mask, if_neg htrim]
  · intro stringify doc tid t dtb hfind hdt hall htrim
    have heq := hmain _ hall
    simp only [readGoogleDocTool, fetchReadSnapshot, readGoogleDoc, resolveContentSource]
    simp only [hfind, hdt]
    rw [if_neg htrim, heq]

/-- The paragraph holding the single run `"AB"`, used in the C8 witness. -/
def paraAB : Paragraph :=
  { elements := some [{ textRun := some { content := some "AB" } }] }

/-- A body holding the paragraph `"AB"` and the 1x1 table with cell `"X"`,
used in the C8 witness. -/
def bodyABX : Body :=
  { content := some [SElem.para paraAB, tableX] }

/-- A document tab `"t"` carrying `bodyABX`, used in the C8 witness. -/
def tabABX : GTab DocumentTabBody :=
  GTab.mk (some "t") (some { body := some bodyABX }) []

/-- Witness for C8: a document holding the paragraph `"AB"` and a 1x1 table
whose cell holds `"X"` reads, without a `tabId`, as the paragraph text only;
the same content inside tab `"t"` reads with the table-cell text included. -/
theorem textProjection_fetchMask_witness :
    readGoogleDocTool (fun _ => "") ReadFormat.text none none { body := some bodyABX } =
      Except.ok ([], "Content (" ++
        toString (paragraphOnlyText [SElem.para paraAB, tableX]).length ++
        " characters):\n---\n" ++ paragraphOnlyText [SElem.para paraAB, tableX]) ∧
    readGoogleDocTool (fun _ => "") ReadFormat.text none (some "t")
        { tabs := some [tabABX] } =
      Except.ok ([], "Content (" ++
        toString (specAllRunText [SElem.para paraAB, tableX]).length ++
        " characters):\n---\n" ++ specAllRunText [SElem.para paraAB, tableX]) := by
  constructor
  · exact textProjection_fetchMask.2.1 (fun _ => "") { body := some bodyABX } (by decide)
  · exact textProjection_fetchMask.2.2.2 (fun _ => "") { tabs := some [tabABX] } "t" tabABX
      { body := some bodyABX } (by simp [tabsFind, tabABX]) rfl (by decide) (by decide)

/-- Counterexample to C9: supplying `maxLength = 0` with 2-character content
does not truncate — the JS guard `args.maxLength && ...` treats `0` as
absent, so the full content comes back, identical to the call without
`maxLength`; and with blank (all-whitespace) content longer than a positive
`maxLength`, the empty-document notice is returned instead of a truncation. -/
theorem truncation_zeroMaxLength_counterexample :
    readGoogleDoc (fun _ => "") ReadFormat.text (some 0) none
        { body := some { content := some [SElem.para
          { elements := some [{ textRun := some { content := some "ab" } }] }] } } =
      Except.ok ([], "Content (2 characters):\n---\nab") ∧
    readGoogleDoc (fun _ => "") ReadFormat.text (some 0) none
        { body := some { content := some [SElem.para
          { elements := some [{ textRun := some { content := some "ab" } }] }] } } =
      readGoogleDoc (fun _ => "") ReadFormat.text none none
        { body := some { content := some [SElem.para
          { elements := some [{ textRun := some { content := some "ab" } }] }] } } ∧
    readGoogleDoc (fun _ => "") ReadFormat.text (some 1) none
        { body := some { content := some [SElem.para
          { elements := some [{ textRun := some { content := some "  " } }] }] } } =
      Except.ok ([], "Document found, but appears empty.") := ⟨rfl, rfl, rfl⟩

/-- C9 (amended): when `maxLength` is supplied, positive, and the projected
content (markdown, or text with non-blank content) is longer than
`maxLength`, the result is exactly the first `maxLength` characters of the
content plus a marker reporting the truncated and total lengths (the text
format reports both lengths in a header before the content and the remaining
count after it); when `maxLength` is absent or not exceeded the content is
returned in full (the text format behind a `Content (N characters)` header);
`maxLength = 0` is treated as absent and blank text content yields the
empty-document notice, per the counterexample. -/
theorem truncation_behavior :
    (∀ (strf : ContentSource → String) (doc : DocRead) (m : Nat),
      0 < m →
      (convertDocsJsonToMarkdown { body := doc.body }).length > m →
      readGoogleDoc strf ReadFormat.markdown (some m) none doc =
        Except.ok ([], strTake (convertDocsJsonToMarkdown { body := doc.body }) m ++
          "\n\n... [Markdown truncated to " ++ toString m ++ " chars of " ++
          toString (convertDocsJsonToMarkdown { body := doc.body }).length ++
          " total. Use maxLength parameter to adjust limit or remove it to get full content.]")) ∧
    (∀ (strf : ContentSource → String) (doc : DocRead) (m : Nat),
      ¬ (convertDocsJsonToMarkdown { body := doc.body }).length > m →
      readGoogleDoc strf ReadFormat.markdown (some m) none doc =
        Except.ok ([], convertDocsJsonToMarkdown { body := doc.body })) ∧
    (∀ (strf : ContentSource → String) (doc : DocRead),
      readGoogleDoc strf ReadFormat.markdown none none doc =
        Except.ok ([], convertDocsJsonToMarkdown { body := doc.body })) ∧
    (∀ (strf : ContentSource → String) (doc : DocRead) (m : Nat),
      0 < m →
      jsTrim (extractText ((doc.body.bind Body.content).getD [])) ≠ "" →
      (extractText ((doc.body.bind Body.content).getD [])).length > m →
      readGoogleDoc strf ReadFormat.text (some m) none doc =
        Except.ok ([], "Content (truncated to " ++ toString m ++ " chars of " ++
          toString (extractText ((doc.body.bind Body.content).getD [])).length ++
          " total):\n---\n" ++ strTake (extractText ((doc.body.bind Body.content).getD [])) m ++
          "\n\n... [Document continues for " ++
          toString ((extractText ((doc.body.bind Body.content).getD [])).length - m) ++
          " more characters. Use maxLength parameter to adjust limit or remove it to get full content.]")) ∧
    (∀ (strf : ContentSource → String) (doc : DocRead) (m : Nat),
      jsTrim (extractText ((doc.body.bind Body.content).getD [])) ≠ "" →
      ¬ (extractText ((doc.body.bind Body.content).getD [])).length > m →
      readGoogleDoc strf ReadFormat.text (some m) none doc =
        Except.ok ([], "Content (" ++
          toString (extractText ((doc.body.bind Body.content).getD [])).length ++
          " characters):\n---\n" ++ extractText ((doc.body.bind Body.content).getD []))) ∧
    (∀ (strf : ContentSource → String) (doc : DocRead),
      jsTrim (extractText ((doc.body.bind Body.content).getD [])) ≠ "" →
      readGoogleDoc strf ReadFormat.text none none doc =
        Except.ok ([], "Content (" ++
          toString (extractText ((doc.body.bind Body.content).getD [])).length ++
          " characters):\n---\n" ++ extractText ((doc.body.bind Body.content).getD []))) := by
  refine ⟨?_, ?_, ?_, ?_, ?_, ?_⟩
  · intro strf doc m hm hgt
    simp only [readGoogleDoc, resolveContentSource]
    rw [if_pos ⟨Nat.pos_iff_ne_zero.mp hm, hgt⟩]
  · intro strf doc m hle
    simp only [readGoogleDoc, resolveContentSource]
    rw [if_neg fun hand => hle hand.2]
  · intro strf doc
    simp only [readGoogleDoc, resolveContentSource]
  · intro strf doc m hm htrim hgt
    simp only [readGoogleDoc, resolveContentSource]
    rw [if_neg htrim, if_pos ⟨Nat.pos_iff_ne_zero.mp hm, hgt⟩]
  · intro strf doc m htrim hle
    simp only [readGoogleDoc, resolveContentSource]
    rw [if_neg htrim, if_neg fun hand => hle hand.2]
  · intro strf doc htrim
    simp only [readGoogleDoc, resolveContentSource]
    rw [if_neg htrim]

/-- Witness for C9: content `"abcdef"` with `maxLength = 3` is truncated to
`"abc"` with both lengths reported, and is returned whole with
`maxLength = 9`. -/
theorem truncation_behavior_witness :
    readGoogleDoc (fun _ => "") ReadFormat.text (some 3) none
        { body := some { content := some [SElem.para
          { elements := some [{ textRun := some { content := some "abcdef" } }] }] } } =
      Except.ok ([], "Content (truncated to " ++ toString (3 : Nat) ++ " chars of " ++
        toString (6 : Nat) ++
        " total):\n---\n" ++ ("abc" : String) ++
        "\n\n... [Document continues for " ++ toString (3 : Nat) ++
        " more characters. Use maxLength parameter to adjust limit or remove it to get full content.]") ∧
    readGoogleDoc (fun _ => "") ReadFormat.text (some 9) none
        { body := some { content := some [SElem.para
          { elements := some [{ textRun := some { content := some "abcdef" } }] }] } } =
      Except.ok ([], "Content (" ++ toString (6 : Nat) ++ " characters):\n---\n" ++
        ("abcdef" : String)) := by
  constructor
  · have h := truncation_behavior.2.2.2.1 (fun _ => "")
      { body := some { content := some [SElem.para
        { elements := some [{ textRun := some { content := some "abcdef" } }] }] } } 3
      (by decide) (by decide) (by decide)
    exact h.trans rfl
  · have h := truncation_behavior.2.2.2.2.1 (fun _ => "")
      { body := some { content := some [SElem.para
        { elements := some [{ textRun := some { content := some "abcdef" } }] }] } } 9
      (by decide) (by decide)
    exact h.trans rfl

/-- Witness for C7 at concrete inputs: `"# Title\n\n"` for a `HEADING_1`
paragraph with text `" Title "`, and a bulleted paragraph rendering. -/
theorem markdownProjection_rules_witness :
    convertParagraphToMarkdown
        { elements := some [{ textRun := some { content := some " Title " } }],
          paragraphStyle := some { namedStyleType := some (NamedStyle.headingN 1) } } =
      "".pushn '#' (min 1 6) ++ " " ++ jsTrim " Title " ++ "\n\n" ∧
    convertParagraphToMarkdown
        { elements := some [{ textRun := some { content := some "item" } }],
          bullet := some {} } =
      "- " ++ jsTrim "item" ++ "\n" :=
  ⟨markdownProjection_rules.1
      { elements := some [{ textRun := some { content := some " Title " } }],
        paragraphStyle := some { namedStyleType := some (NamedStyle.headingN 1) } } 1
      rfl (by decide),
   markdownProjection_rules.2.2.2.2.1
      { elements := some [{ textRun := some { content := some "item" } }],
        bullet := some {} } rfl rfl (by decide)⟩

end GDocs
